import Mathlib

/-!
Verification of `parameter_driven_ipo_case_generator.py`.

This file gives a shallow embedding of the generator in Lean 4 and proves the
specification's testable properties against it.  Modelling conventions:

* A Python `datetime` produced by `strptime("%Y-%m-%d", ...)` always has zero
  time-of-day, so it is modelled as a `(year, month, day)` record.  `datetime`
  comparison is lexicographic on these fields, and `date + timedelta(weeks=w)`
  advances the proleptic Gregorian calendar by `7*w` days; we model the latter
  by iterating the calendar successor function.  `datetime` raises
  `OverflowError` past year 9999 (`datetime.max`), which we model by making the
  successor partial at 9999-12-31; errors are modelled with `Except`.
* The numeric rule factors in the source are float literals with exactly two
  decimal digits (0.85, 1.1, ...).  They are embedded as exact integers scaled
  by 100, and the composite factors (products of two such values) are therefore
  scaled by 10000.  The only arithmetic consuming them is
  `max(0, int(week_offset * time_factor))`; since all operands are nonnegative,
  Python's `int` truncation equals the floor, embedded here as Nat floor
  division by 10000.  For every factor pair in the rule catalog and every week
  offset in the task catalog, the Python float computation agrees with this
  exact arithmetic (the products never fall within float rounding error of an
  integer from below), so the embedding is extensionally faithful.
* String manipulation (`in`, `str.replace`, `strptime`) is embedded by
  structural functions on `List Char`.  CPython's `strptime` compiles
  `"%Y-%m-%d"` to the regex `(\d\d\d\d)-(1[0-2]|0[1-9]|[1-9])-(3[01]|[12]\d|0[1-9]|[1-9])`,
  anchored and requiring full consumption, followed by the `datetime`
  constructor's range checks (year at least 1, day at most the month length);
  `strptimeYMD` below implements exactly that.
* Python's `list.sort(key=...)` is a stable sort by the key; it is embedded as
  `List.insertionSort` with the total preorder "key not greater", which
  produces the same (unique) stable sorted permutation.
* The `print` calls are side-effect free for the data flow and are dropped.
  The OpenAI client is opaque; it is modelled as an optional function that may
  fail (`Except String`), matching `try/except` in `_call_llm_for_review`.
-/

/-- A calendar date, as carried by a Python `datetime` with zero time-of-day. -/
structure Date where
  year : Nat
  month : Nat
  day : Nat
deriving DecidableEq

/-- Gregorian leap-year test, as in `calendar.isleap` / `datetime`. -/
def isLeap (y : Nat) : Bool :=
  y % 4 == 0 && (y % 100 != 0 || y % 400 == 0)

/-- Number of days in a month of a given year (proleptic Gregorian). -/
def daysInMonth (y m : Nat) : Nat :=
  if m = 2 then (if isLeap y then 29 else 28)
  else if m = 4 ∨ m = 6 ∨ m = 9 ∨ m = 11 then 30
  else 31

/-- Successor of a calendar date. -/
def nextDay (d : Date) : Date :=
  if d.day < daysInMonth d.year d.month then ⟨d.year, d.month, d.day + 1⟩
  else if d.month < 12 then ⟨d.year, d.month + 1, 1⟩
  else ⟨d.year + 1, 1, 1⟩

/-- Successor of a calendar date, partial at `datetime.max` (9999-12-31):
Python raises `OverflowError` when date arithmetic leaves year 9999. -/
def nextDayO (d : Date) : Option Date :=
  if d.year = 9999 ∧ d.month = 12 ∧ d.day = 31 then none else some (nextDay d)

/-- `d + timedelta(days=n)`, `none` on overflow past `datetime.max`. -/
def addDaysO (d : Date) : Nat → Option Date
  | 0 => some d
  | n + 1 =>
    match nextDayO d with
    | none => none
    | some d' => addDaysO d' n

/-- `datetime` comparison: lexicographic on (year, month, day). -/
def DateLe (a b : Date) : Prop :=
  a.year < b.year ∨ (a.year = b.year ∧ (a.month < b.month ∨ (a.month = b.month ∧ a.day ≤ b.day)))

instance : DecidableRel DateLe := fun a b => by unfold DateLe; infer_instance

-- ---------------------------------------------------------------------------
-- String machinery: `"当周" in s`, `str.replace`, and `strptime("%Y-%m-%d")`
-- ---------------------------------------------------------------------------

/-- Substring test `"当周" in s` (a two-character pattern). -/
def containsZhou : List Char → Bool
  | [] => false
  | [_] => false
  | a :: b :: rest => (a = '当' && b = '周') || containsZhou (b :: rest)

/-- `s.replace("当周", "")`: remove non-overlapping occurrences left to right. -/
def stripZhou : List Char → List Char
  | [] => []
  | [c] => [c]
  | a :: b :: rest =>
    if a = '当' ∧ b = '周' then stripZhou rest
    else a :: stripZhou (b :: rest)

/-- `s.replace(a, b)` for single-character `a`, `b`: a character map. -/
def repl1 (a b : Char) (l : List Char) : List Char :=
  l.map fun c => if c = a then b else c

/-- `s.replace(a, "")` for a single character `a`: a filter. -/
def drop1 (a : Char) (l : List Char) : List Char :=
  l.filter fun c => c != a

/-- Split a character list at `-` separators (the value fields of the
`%Y-%m-%d` pattern cannot contain `-`, so the split is faithful to the
regex decomposition). -/
def splitDash : List Char → List (List Char)
  | [] => [[]]
  | c :: rest =>
    match splitDash rest with
    | [] => [[c]]
    | g :: gs => if c = '-' then [] :: g :: gs else (c :: g) :: gs

/-- ASCII decimal digit test. -/
def isDigitC (c : Char) : Bool :=
  48 ≤ c.toNat && c.toNat ≤ 57

/-- Numeric value of an ASCII digit. -/
def digitVal (c : Char) : Nat := c.toNat - 48

/-- The `%Y` field: exactly four decimal digits (CPython `TimeRE`). -/
def yearOk : List Char → Option Nat
  | [a, b, c, d] =>
    if isDigitC a && isDigitC b && isDigitC c && isDigitC d then
      some (((digitVal a * 10 + digitVal b) * 10 + digitVal c) * 10 + digitVal d)
    else none
  | _ => none

/-- The `%m` field: the regex language `1[0-2]|0[1-9]|[1-9]`. -/
def monthOk : List Char → Option Nat
  | [c] => if 49 ≤ c.toNat ∧ c.toNat ≤ 57 then some (digitVal c) else none
  | [a, b] =>
    if a = '1' ∧ 48 ≤ b.toNat ∧ b.toNat ≤ 50 then some (10 + digitVal b)
    else if a = '0' ∧ 49 ≤ b.toNat ∧ b.toNat ≤ 57 then some (digitVal b)
    else none
  | _ => none

/-- The `%d` field: the regex language `3[01]|[12]\d|0[1-9]|[1-9]`. -/
def dayOk : List Char → Option Nat
  | [c] => if 49 ≤ c.toNat ∧ c.toNat ≤ 57 then some (digitVal c) else none
  | [a, b] =>
    if a = '3' ∧ 48 ≤ b.toNat ∧ b.toNat ≤ 49 then some (30 + digitVal b)
    else if (a = '1' ∨ a = '2') ∧ isDigitC b then some (digitVal a * 10 + digitVal b)
    else if a = '0' ∧ 49 ≤ b.toNat ∧ b.toNat ≤ 57 then some (digitVal b)
    else none
  | _ => none

/-- `datetime.strptime(s, "%Y-%m-%d")`: the anchored regex match plus the
`datetime` constructor's validity checks (`MINYEAR = 1`, day bounded by the
month length; year at most 9999 is forced by the four-digit year field). -/
def strptimeYMD (cs : List Char) : Option Date :=
  match splitDash cs with
  | [yc, mc, dc] =>
    match yearOk yc, monthOk mc, dayOk dc with
    | some y, some m, some d =>
      if 1 ≤ y ∧ d ≤ daysInMonth y m then some ⟨y, m, d⟩ else none
    | _, _, _ => none
  | _ => none

/-- `_parse_date`: strip the `当周` week qualifier and localized separators,
then parse as `%Y-%m-%d`; strings without `当周` are parsed directly. -/
def parse_date (s : String) : Option Date :=
  if containsZhou s.data then
    strptimeYMD (drop1 '日' (repl1 '月' '-' (repl1 '年' '-' (stripZhou s.data))))
  else
    strptimeYMD s.data

/-- Little-endian decimal digits of `n`, with explicit fuel (the first argument
is an upper bound on the number of division steps; `n` itself suffices). -/
def digitsRevAux : Nat → Nat → List Nat
  | 0, _ => []
  | f + 1, n => if n = 0 then [] else n % 10 :: digitsRevAux f (n / 10)

/-- Decimal rendering of a natural number, as Python's `str(int)` / f-string
interpolation: no padding, most significant digit first. -/
def natDigits (n : Nat) : List Char :=
  if n = 0 then ['0'] else ((digitsRevAux n n).reverse).map Nat.digitChar

/-- `_format_date`: `f"{date.year}年{date.month}月{date.day}日当周"`. -/
def format_date (d : Date) : String :=
  String.mk (natDigits d.year ++ '年' :: natDigits d.month ++ '月' ::
    natDigits d.day ++ ['日', '当', '周'])

-- ---------------------------------------------------------------------------
-- Task catalog and rule catalog (`_load_base_templates`, `_load_variation_rules`)
-- ---------------------------------------------------------------------------

/-- One task template: 工作条线 / 任务 / 牵头方 / 周偏移. -/
structure TaskTemplate where
  work_stream : String
  task : String
  lead_party : String
  week_offset : Nat
deriving DecidableEq

/-- The `core_tasks` group of `_load_base_templates`. -/
def core_tasks : List TaskTemplate :=
  [⟨"项目管理", "召开项目启动会", "全体", 0⟩,
   ⟨"境内外监管审批", "定稿保荐人及整体协调人委任函并呈交联交所", "保荐人", 2⟩,
   ⟨"境内外监管审批", "向联交所递交A1申请", "各方", 23⟩]

/-- The `equity_reform_tasks` group of `_load_base_templates`. -/
def equity_reform_tasks : List TaskTemplate :=
  [⟨"股改", "作出确定股改基准日、股权激励等决议", "公司、公司境内律师", 2⟩,
   ⟨"股改", "完成股改工作（召开创立大会）", "公司、公司境内律师", 10⟩]

/-- `self.base_templates.get(mod, [])`: task-group lookup with a silent empty
default for unknown group names. -/
def base_templates_get (k : String) : List TaskTemplate :=
  if k = "core_tasks" then core_tasks
  else if k = "equity_reform_tasks" then equity_reform_tasks
  else []

/-- Rule record for `company_structure`: `add_modules` and the
`complexity_modifier` (scaled by 100). -/
structure StructureRule where
  add_modules : List String
  complexity_modifier : Nat
deriving DecidableEq

/-- Rule record for `project_pace`: `time_compression` (scaled by 100) and
`risk_level`. -/
structure PaceRule where
  time_compression : Nat
  risk_level : String
deriving DecidableEq

/-- Rule record for `listing_board_hk` (descriptive only). -/
structure BoardRule where
  description : String
deriving DecidableEq

/-- Rule record for `a1_filing_financials`: `audit_complexity` (scaled by 100). -/
structure FinancialRule where
  audit_complexity : Nat
deriving DecidableEq

/-- Rule record for `ipo_readiness`: `preparation_factor` (scaled by 100). -/
structure ReadinessRule where
  preparation_factor : Nat
deriving DecidableEq

/-- `variation_rules["company_structure"]`. -/
def company_structure_rules (k : String) : Option StructureRule :=
  if k = "境内有限责任公司 (需股改)" then some ⟨["equity_reform_tasks"], 110⟩
  else if k = "已是境内股份有限公司" then some ⟨[], 80⟩
  else if k = "红筹/VIE架构 (已搭建)" then some ⟨[], 90⟩
  else if k = "红筹/VIE架构 (需搭建)" then some ⟨[], 130⟩
  else none

/-- `variation_rules["project_pace"]`. -/
def project_pace_rules (k : String) : Option PaceRule :=
  if k = "急速推进 (Aggressive)" then some ⟨85, "高"⟩
  else if k = "标准节奏 (Standard)" then some ⟨100, "中"⟩
  else if k = "稳健保守 (Cautious)" then some ⟨115, "低"⟩
  else none

/-- `variation_rules["listing_board_hk"]`. -/
def listing_board_hk_rules (k : String) : Option BoardRule :=
  if k = "主板" then some ⟨"主板"⟩
  else if k = "GEM" then some ⟨"GEM"⟩
  else none

/-- `variation_rules["a1_filing_financials"]`. -/
def a1_filing_financials_rules (k : String) : Option FinancialRule :=
  if k = "最近两个完整财年 + 最近一期中期" then some ⟨80⟩
  else if k = "最近三个完整财年" then some ⟨100⟩
  else if k = "最近三个完整财年 + 最近一期中期" then some ⟨120⟩
  else none

/-- `variation_rules["ipo_readiness"]`. -/
def ipo_readiness_rules (k : String) : Option ReadinessRule :=
  if k = "高准备度" then some ⟨90⟩
  else if k = "中等准备度" then some ⟨100⟩
  else if k = "低准备度" then some ⟨120⟩
  else none

/-- `_determine_ipo_readiness_level`. -/
def determine_ipo_readiness_level (readiness_list : List String) : String :=
  if "几乎未开始" ∈ readiness_list then "低准备度"
  else if 3 ≤ (readiness_list.filter fun r => r != "几乎未开始").length then "高准备度"
  else "中等准备度"

-- ---------------------------------------------------------------------------
-- Parameter sets and the timeline projector (`generate_case_timeline`)
-- ---------------------------------------------------------------------------

/-- One case's parameter set (`case_params`).  The five anchor-date fields and
`ipo_readiness`, `optional_modules` are accessed with mandatory / defaulted
dict lookups in the source; fields read via `case_params.get(key, default)`
are `Option`s here, with the default applied at the read site as in the
source. -/
structure CaseParams where
  case_name : Option String
  project_start_date : String
  sponsor_agreement_date : String
  equity_reform_base_date : String
  equity_reform_completion_date : String
  a1_submission_date : String
  performance_period : Option String
  current_structure : Option String
  project_pace : Option String
  listing_board_hk : Option String
  a1_filing_financials : Option String
  ipo_readiness : List String
  optional_modules : List String
deriving DecidableEq

/-- Errors that abort one case's generation: `ValueError` from `strptime`
(carrying the offending string), `KeyError` from a rule-catalog lookup
(carrying the unknown key), and `OverflowError` from date arithmetic. -/
inductive GenError where
  | formatError (s : String)
  | unknownParameterValue (k : String)
  | overflowError
deriving DecidableEq

instance {ε α : Type} [DecidableEq ε] [DecidableEq α] : DecidableEq (Except ε α) := fun a b =>
  match a, b with
  | .ok x, .ok y =>
    if h : x = y then isTrue (by rw [h]) else isFalse (by intro hc; cases hc; exact h rfl)
  | .error x, .error y =>
    if h : x = y then isTrue (by rw [h]) else isFalse (by intro hc; cases hc; exact h rfl)
  | .ok _, .error _ => isFalse (by intro hc; cases hc)
  | .error _, .ok _ => isFalse (by intro hc; cases hc)

/-- `_parse_date` with the `ValueError` made explicit. -/
def parse_date_e (s : String) : Except GenError Date :=
  match parse_date s with
  | some d => .ok d
  | none => .error (.formatError s)

/-- Dict indexing `rules[key]` with `KeyError` made explicit. -/
def lookup_e {α : Type} (find : String → Option α) (k : String) : Except GenError α :=
  match find k with
  | some v => .ok v
  | none => .error (.unknownParameterValue k)

/-- The resolved inputs of one case: lines 211-230 of the source (parsed anchor
dates, defaulted categorical keys, resolved rule records, and the two
composite factors, scaled by 10000). -/
structure Resolved where
  project_start_date : Date
  sponsor_agreement_date : Date
  equity_base_date : Date
  equity_completion_date : Date
  a1_date : Date
  company_structure : String
  project_pace : String
  listing_board : String
  a1_financials : String
  readiness_level : String
  structure_rules : StructureRule
  pace_rules : PaceRule
  financial_rules : FinancialRule
  readiness_rules : ReadinessRule
  time_factor : Nat
  complexity_factor : Nat
deriving DecidableEq

/-- Lines 211-230 of `generate_case_timeline`: parse the anchor dates, default
the categorical fields, resolve the rule records and compute the composite
factors.  Lines 219-221 read `optional_modules` and clear it when the `无`
sentinel is present, but the cleared value is never used afterwards, so it
does not appear in the resolved record.  The sequential Python statements
(each able to raise) are embedded as nested matches propagating the first
error. -/
def resolve_params (p : CaseParams) : Except GenError Resolved :=
  match parse_date_e p.project_start_date with
  | .error e => .error e
  | .ok start =>
  match parse_date_e p.sponsor_agreement_date with
  | .error e => .error e
  | .ok sponsor =>
  match parse_date_e p.equity_reform_base_date with
  | .error e => .error e
  | .ok equity_base =>
  match parse_date_e p.equity_reform_completion_date with
  | .error e => .error e
  | .ok equity_completion =>
  match parse_date_e p.a1_submission_date with
  | .error e => .error e
  | .ok a1 =>
  match lookup_e company_structure_rules (p.current_structure.getD "境内有限责任公司 (需股改)") with
  | .error e => .error e
  | .ok structure_rules =>
  match lookup_e project_pace_rules (p.project_pace.getD "标准节奏 (Standard)") with
  | .error e => .error e
  | .ok pace_rules =>
  match lookup_e a1_filing_financials_rules (p.a1_filing_financials.getD "最近三个完整财年") with
  | .error e => .error e
  | .ok financial_rules =>
  match lookup_e ipo_readiness_rules (determine_ipo_readiness_level p.ipo_readiness) with
  | .error e => .error e
  | .ok readiness_rules =>
  .ok ⟨start, sponsor, equity_base, equity_completion, a1,
    p.current_structure.getD "境内有限责任公司 (需股改)", p.project_pace.getD "标准节奏 (Standard)",
    p.listing_board_hk.getD "主板", p.a1_filing_financials.getD "最近三个完整财年",
    determine_ipo_readiness_level p.ipo_readiness,
    structure_rules, pace_rules, financial_rules, readiness_rules,
    pace_rules.time_compression * readiness_rules.preparation_factor,
    structure_rules.complexity_modifier * financial_rules.audit_complexity⟩

/-- Lines 231-234: the working task set — the core tasks plus every task group
named by the structure rule's `add_modules`. -/
def tasks_of (res : Resolved) : List TaskTemplate :=
  core_tasks ++ res.structure_rules.add_modules.flatMap base_templates_get

/-- A timeline dict as first built (lines 247-253), still carrying the
`sort_date` key. -/
structure EntryK where
  date_str : String
  work_stream : String
  task : String
  lead_party : String
  sort_date : Date
deriving DecidableEq

/-- A timeline dict after `item.pop("sort_date")` (lines 255-256). -/
structure TimelineEntry where
  date_str : String
  work_stream : String
  task : String
  lead_party : String
deriving DecidableEq

/-- `item.pop("sort_date")`. -/
def dropSortKey (e : EntryK) : TimelineEntry :=
  ⟨e.date_str, e.work_stream, e.task, e.lead_party⟩

/-- `s.startswith(pat)`. -/
def startsL : List Char → List Char → Bool
  | _, [] => true
  | [], _ :: _ => false
  | c :: cs, p :: ps => c = p && startsL cs ps

/-- `s.startswith(pat)` on strings. -/
def strStarts (s pat : String) : Bool := startsL s.data pat.data

/-- Lines 239-246: the four anchor-date overrides.  In the source these are
four sequential (non-exclusive) `if` statements reassigning `date`, so the
last matching prefix wins; the nested conditional below therefore tests the
prefixes in reverse source order. -/
def entry_date (res : Resolved) (t : TaskTemplate) (candidate : Date) : Date :=
  if strStarts t.task "向联交所递交A1申请" then res.a1_date
  else if strStarts t.task "完成股改工作" then res.equity_completion_date
  else if strStarts t.task "作出确定股改基准日" then res.equity_base_date
  else if strStarts t.task "定稿保荐人" then res.sponsor_agreement_date
  else candidate

/-- Lines 236-253, one loop iteration: the scaled candidate date
(`max(0, int(周偏移 * time_factor))` weeks after project start, which can
raise `OverflowError`), the anchor-date overrides, and the dict
construction. -/
def build_entry (res : Resolved) (t : TaskTemplate) : Except GenError EntryK :=
  match addDaysO res.project_start_date (7 * max 0 (t.week_offset * res.time_factor / 10000)) with
  | none => .error .overflowError
  | some candidate =>
    .ok ⟨format_date (entry_date res t candidate), t.work_stream, t.task, t.lead_party,
      entry_date res t candidate⟩

/-- A `for` loop over a list that appends one `Except` result per element and
propagates the first error (as a raised exception does). -/
def mapE {α β : Type} (f : α → Except GenError β) : List α → Except GenError (List β)
  | [] => .ok []
  | x :: xs =>
    match f x with
    | .error e => .error e
    | .ok y =>
      match mapE f xs with
      | .error e => .error e
      | .ok ys => .ok (y :: ys)

/-- Lines 235-253: the timeline before sorting, in task-catalog order. -/
def raw_timeline (res : Resolved) : Except GenError (List EntryK) :=
  mapE (build_entry res) (tasks_of res)

/-- The sort relation of `timeline.sort(key=lambda x: x["sort_date"])`:
compare entries by their `sort_date`. -/
def entryLe (a b : EntryK) : Prop := DateLe a.sort_date b.sort_date

instance : DecidableRel entryLe := fun a b => by unfold entryLe; infer_instance

/-- A review verdict: the default dicts built by `_call_llm_for_review` carry
`review_passed` and `summary`; a successful external call returns an opaque
verdict of the same shape. -/
structure Verdict where
  review_passed : Bool
  summary : String
deriving DecidableEq

/-- The external LLM boundary: given the timeline and the parameters it either
returns a verdict or fails (network error, bad JSON, ... — anything `except
Exception` would catch, with the exception text). -/
def ReviewClient : Type := List TimelineEntry → CaseParams → Except String Verdict

/-- `_call_llm_for_review`: no configured client yields the fixed default-pass
verdict with no external call; a failing call is downgraded to a default-pass
verdict naming the cause. -/
def call_llm_for_review (client : Option ReviewClient) (timeline : List TimelineEntry)
    (params : CaseParams) : Verdict :=
  match client with
  | none => ⟨true, "LLM未启用"⟩
  | some call =>
    match call timeline params with
    | .ok v => v
    | .error e => ⟨true, "LLM调用失败: " ++ e⟩

/-- The 案例特征 record of the report. -/
structure Characteristics where
  total_tasks : Nat
  company_structure : String
  project_pace : String
  listing_board : String
  a1_financials : String
  readiness_level : String
  complexity_factor : Nat
  time_factor : Nat
deriving DecidableEq

/-- The case report (案例名称 / 项目参数 / 案例特征 / LLM审核结果). -/
structure CaseReport where
  case_name : Option String
  case_params : CaseParams
  characteristics : Characteristics
  llm_review : Verdict
deriving DecidableEq

/-- The triple returned by `generate_case_timeline`. -/
structure GenOutput where
  timeline : List TimelineEntry
  report : CaseReport
  review : Verdict
deriving DecidableEq

/-- Lines 254-274 of `generate_case_timeline` (everything after the raw
timeline exists, which cannot fail): sort, strip the sort key, call the review
boundary, and assemble the report. -/
def assemble (client : Option ReviewClient) (p : CaseParams) (res : Resolved)
    (raw : List EntryK) : GenOutput :=
  let sorted := List.insertionSort entryLe raw
  let timeline := sorted.map dropSortKey
  let review := call_llm_for_review client timeline p
  ⟨timeline,
    ⟨p.case_name, p,
      ⟨timeline.length, res.company_structure, res.project_pace, res.listing_board,
        res.a1_financials, res.readiness_level, res.complexity_factor, res.time_factor⟩,
      review⟩,
    review⟩

/-- `generate_case_timeline`: resolve parameters, build, sort and strip the
timeline, call the review boundary, and assemble the report. -/
def generate_case_timeline (client : Option ReviewClient) (p : CaseParams) :
    Except GenError GenOutput :=
  match resolve_params p with
  | .error e => .error e
  | .ok res =>
    match raw_timeline res with
    | .error e => .error e
    | .ok raw => .ok (assemble client p res raw)

/-- One iteration of the batch loop: `result[k] = self.generate_case_timeline(cfg)`,
keyed by the case identifier; an exception propagates. -/
def run_case (client : Option ReviewClient) (c : String × CaseParams) :
    Except GenError (String × GenOutput) :=
  match generate_case_timeline client c.2 with
  | .ok out => .ok (c.1, out)
  | .error e => .error e

/-- The batch loop of `generate_predefined_cases` (lines 317-319), generalized
to its input mapping: `for k, cfg in cases.items(): result[k] =
self.generate_case_timeline(cfg)`.  There is no `try` around the call, so an
exception raised by one case propagates and no mapping is returned. -/
def run_batch (client : Option ReviewClient) (cases : List (String × CaseParams)) :
    Except GenError (List (String × GenOutput)) :=
  mapE (run_case client) cases

/-- The hard-coded `Case1` parameter set of `generate_predefined_cases`. -/
def case1_params : CaseParams :=
  ⟨some "Case1 - 标准股改项目",
   "2025年8月4日当周", "2025年8月18日当周", "2025年8月18日当周",
   "2025年10月13日当周", "2026年1月12日当周",
   some "2023-2025年",
   some "境内有限责任公司 (需股改)",
   some "标准节奏 (Standard)",
   some "主板",
   some "最近三个完整财年",
   ["初步的财务梳理/预审"],
   []⟩

/-- `generate_predefined_cases`. -/
def generate_predefined_cases (client : Option ReviewClient) :
    Except GenError (List (String × GenOutput)) :=
  run_batch client [("Case1", case1_params)]

-- ---------------------------------------------------------------------------
-- Derived definitions used by the statements and witnesses
-- ---------------------------------------------------------------------------

instance : IsTotal EntryK entryLe :=
  ⟨by intro a b; unfold entryLe DateLe; omega⟩

instance : IsTrans EntryK entryLe :=
  ⟨by intro a b c; unfold entryLe DateLe; omega⟩

/-- A task bound to one of the four fixed milestone roles, identified as the
source does, by description prefix. -/
def is_milestone_task (t : TaskTemplate) : Bool :=
  strStarts t.task "定稿保荐人" || strStarts t.task "作出确定股改基准日" ||
    strStarts t.task "完成股改工作" || strStarts t.task "向联交所递交A1申请"

/-- A calendar date representable by a Python `datetime`. -/
def ValidDate (d : Date) : Prop :=
  1 ≤ d.year ∧ d.year ≤ 9999 ∧ 1 ≤ d.month ∧ d.month ≤ 12 ∧
    1 ≤ d.day ∧ d.day ≤ daysInMonth d.year d.month

/-- Replace only the `optional_modules` field of a parameter set. -/
def set_optional_modules (p : CaseParams) (mods : List String) : CaseParams :=
  { p with optional_modules := mods }

/-- The resolved inputs of `Case1` (checked by evaluation in the witnesses). -/
def case1_resolved : Resolved :=
  ⟨⟨2025, 8, 4⟩, ⟨2025, 8, 18⟩, ⟨2025, 8, 18⟩, ⟨2025, 10, 13⟩, ⟨2026, 1, 12⟩,
   "境内有限责任公司 (需股改)", "标准节奏 (Standard)", "主板", "最近三个完整财年", "中等准备度",
   ⟨["equity_reform_tasks"], 110⟩, ⟨100, "中"⟩, ⟨100⟩, ⟨100⟩, 10000, 11000⟩

/-- The pre-sort timeline of `Case1` (checked by evaluation in the witnesses). -/
def case1_raws : List EntryK :=
  [⟨"2025年8月4日当周", "项目管理", "召开项目启动会", "全体", ⟨2025, 8, 4⟩⟩,
   ⟨"2025年8月18日当周", "境内外监管审批", "定稿保荐人及整体协调人委任函并呈交联交所", "保荐人",
     ⟨2025, 8, 18⟩⟩,
   ⟨"2026年1月12日当周", "境内外监管审批", "向联交所递交A1申请", "各方", ⟨2026, 1, 12⟩⟩,
   ⟨"2025年8月18日当周", "股改", "作出确定股改基准日、股权激励等决议", "公司、公司境内律师",
     ⟨2025, 8, 18⟩⟩,
   ⟨"2025年10月13日当周", "股改", "完成股改工作（召开创立大会）", "公司、公司境内律师",
     ⟨2025, 10, 13⟩⟩]

/-- The returned timeline of `Case1`: chronological, with the tie between the
two 2025-08-18 tasks broken by task-catalog order. -/
def case1_timeline : List TimelineEntry :=
  [⟨"2025年8月4日当周", "项目管理", "召开项目启动会", "全体"⟩,
   ⟨"2025年8月18日当周", "境内外监管审批", "定稿保荐人及整体协调人委任函并呈交联交所", "保荐人"⟩,
   ⟨"2025年8月18日当周", "股改", "作出确定股改基准日、股权激励等决议", "公司、公司境内律师"⟩,
   ⟨"2025年10月13日当周", "股改", "完成股改工作（召开创立大会）", "公司、公司境内律师"⟩,
   ⟨"2026年1月12日当周", "境内外监管审批", "向联交所递交A1申请", "各方"⟩]

/-- The full output of `Case1` with no review client configured. -/
def case1_output : GenOutput :=
  ⟨case1_timeline,
   ⟨some "Case1 - 标准股改项目", case1_params,
    ⟨5, "境内有限责任公司 (需股改)", "标准节奏 (Standard)", "主板", "最近三个完整财年",
      "中等准备度", 11000, 10000⟩,
    ⟨true, "LLM未启用"⟩⟩,
   ⟨true, "LLM未启用"⟩⟩

/-- A parameter set whose project-start anchor fails date parsing. -/
def bad_params : CaseParams :=
  { case1_params with project_start_date := "bad" }

/-- A parameter set with a corporate-structure value absent from the rule
catalog. -/
def unknown_structure_params : CaseParams :=
  { case1_params with current_structure := some "某未知架构" }

-- ---------------------------------------------------------------------------
-- Basic lemmas about the embedding
-- ---------------------------------------------------------------------------

theorem parse_date_e_ok {s : String} {d : Date} :
    parse_date_e s = .ok d ↔ parse_date s = some d := by
  unfold parse_date_e
  cases parse_date s <;> simp

theorem lookup_e_ok {α : Type} {find : String → Option α} {k : String} {v : α} :
    lookup_e find k = .ok v ↔ find k = some v := by
  unfold lookup_e
  cases find k <;> simp

theorem mapE_ok_forall_mem {α β : Type} {f : α → Except GenError β} :
    ∀ {l : List α} {ys : List β}, mapE f l = .ok ys → ∀ y ∈ ys, ∃ x ∈ l, f x = .ok y := by
  intro l
  induction l with
  | nil => intro ys h y hy; rw [show mapE f [] = .ok [] from rfl] at h; cases h; cases hy
  | cons x xs ih =>
    intro ys h y hy
    unfold mapE at h
    cases hfx : f x with
    | error e => rw [hfx] at h; cases h
    | ok b =>
      rw [hfx] at h
      cases hrest : mapE f xs with
      | error e => rw [hrest] at h; cases h
      | ok bs =>
        rw [hrest] at h
        cases h
        rcases List.mem_cons.mp hy with h1 | h2
        · exact ⟨x, List.mem_cons_self x xs, by rw [h1]; exact hfx⟩
        · obtain ⟨x', hx', hfx'⟩ := ih hrest y h2
          exact ⟨x', List.mem_cons_of_mem x hx', hfx'⟩

theorem mapE_ok_mem_exists {α β : Type} {f : α → Except GenError β} :
    ∀ {l : List α} {ys : List β}, mapE f l = .ok ys → ∀ x ∈ l, ∃ y ∈ ys, f x = .ok y := by
  intro l
  induction l with
  | nil => intro ys h x hx; cases hx
  | cons a xs ih =>
    intro ys h x hx
    unfold mapE at h
    cases hfa : f a with
    | error e => rw [hfa] at h; cases h
    | ok b =>
      rw [hfa] at h
      cases hrest : mapE f xs with
      | error e => rw [hrest] at h; cases h
      | ok bs =>
        rw [hrest] at h
        cases h
        rcases List.mem_cons.mp hx with h1 | h2
        · exact ⟨b, List.mem_cons_self b bs, by rw [h1]; exact hfa⟩
        · obtain ⟨y, hy, hfy⟩ := ih hrest x h2
          exact ⟨y, List.mem_cons_of_mem b hy, hfy⟩

theorem mapE_isOk_iff {α β : Type} {f : α → Except GenError β} :
    ∀ {l : List α}, (mapE f l).isOk = true ↔ ∀ x ∈ l, (f x).isOk = true := by
  intro l
  induction l with
  | nil => simp [mapE, Except.isOk, Except.toBool]
  | cons a xs ih =>
    constructor
    · intro h x hx
      unfold mapE at h
      cases hfa : f a with
      | error e => rw [hfa] at h; simp [Except.isOk, Except.toBool] at h
      | ok b =>
        rw [hfa] at h
        rcases List.mem_cons.mp hx with h1 | h2
        · rw [h1, hfa]; rfl
        · cases hrest : mapE f xs with
          | error e => rw [hrest] at h; simp [Except.isOk, Except.toBool] at h
          | ok bs => exact ih.mp (by rw [hrest]; rfl) x h2
    · intro h
      unfold mapE
      cases hfa : f a with
      | error e =>
        have := h a (List.mem_cons_self a xs)
        rw [hfa] at this
        simp [Except.isOk, Except.toBool] at this
      | ok b =>
        have hxs : (mapE f xs).isOk = true :=
          ih.mpr fun x hx => h x (List.mem_cons_of_mem a hx)
        cases hrest : mapE f xs with
        | error e => rw [hrest] at hxs; simp [Except.isOk, Except.toBool] at hxs
        | ok bs => rfl

theorem dateLe_refl (d : Date) : DateLe d d := by unfold DateLe; omega

theorem dateLe_trans {a b c : Date} (h1 : DateLe a b) (h2 : DateLe b c) : DateLe a c := by
  unfold DateLe at *; omega

theorem dateLe_nextDay (d : Date) : DateLe d (nextDay d) := by
  obtain ⟨y, m, dd⟩ := d
  unfold nextDay
  split
  · simp [DateLe]
  · split <;> simp [DateLe]

theorem addDaysO_le : ∀ (n : Nat) (d e : Date), addDaysO d n = some e → DateLe d e := by
  intro n
  induction n with
  | zero => intro d e h; cases h; exact dateLe_refl _
  | succ m ih =>
    intro d e h
    unfold addDaysO at h
    cases hnd : nextDayO d with
    | none => rw [hnd] at h; exact Option.noConfusion h
    | some d' =>
      rw [hnd] at h
      have hd' : DateLe d d' := by
        unfold nextDayO at hnd
        split at hnd
        · exact Option.noConfusion hnd
        · cases hnd; exact dateLe_nextDay d
      exact dateLe_trans hd' (ih d' e h)

theorem generate_ok_inv {client : Option ReviewClient} {p : CaseParams} {out : GenOutput}
    (h : generate_case_timeline client p = .ok out) :
    ∃ res raw, resolve_params p = .ok res ∧ raw_timeline res = .ok raw ∧
      out = assemble client p res raw := by
  unfold generate_case_timeline at h
  split at h
  · exact Except.noConfusion h
  · rename_i res hres
    split at h
    · exact Except.noConfusion h
    · rename_i raw hraw
      injection h with h'
      exact ⟨res, raw, hres, hraw, h'.symm⟩

theorem resolve_params_ok_inv {p : CaseParams} {res : Resolved}
    (h : resolve_params p = .ok res) :
    parse_date p.project_start_date = some res.project_start_date
    ∧ parse_date p.sponsor_agreement_date = some res.sponsor_agreement_date
    ∧ parse_date p.equity_reform_base_date = some res.equity_base_date
    ∧ parse_date p.equity_reform_completion_date = some res.equity_completion_date
    ∧ parse_date p.a1_submission_date = some res.a1_date
    ∧ res.company_structure = p.current_structure.getD "境内有限责任公司 (需股改)"
    ∧ res.project_pace = p.project_pace.getD "标准节奏 (Standard)"
    ∧ res.listing_board = p.listing_board_hk.getD "主板"
    ∧ res.a1_financials = p.a1_filing_financials.getD "最近三个完整财年"
    ∧ res.readiness_level = determine_ipo_readiness_level p.ipo_readiness
    ∧ company_structure_rules res.company_structure = some res.structure_rules
    ∧ project_pace_rules res.project_pace = some res.pace_rules
    ∧ a1_filing_financials_rules res.a1_financials = some res.financial_rules
    ∧ ipo_readiness_rules res.readiness_level = some res.readiness_rules
    ∧ res.time_factor = res.pace_rules.time_compression * res.readiness_rules.preparation_factor
    ∧ res.complexity_factor
        = res.structure_rules.complexity_modifier * res.financial_rules.audit_complexity := by
  unfold resolve_params at h
  split at h
  · exact Except.noConfusion h
  rename_i start h1
  split at h
  · exact Except.noConfusion h
  rename_i sponsor h2
  split at h
  · exact Except.noConfusion h
  rename_i equity_base h3
  split at h
  · exact Except.noConfusion h
  rename_i equity_completion h4
  split at h
  · exact Except.noConfusion h
  rename_i a1 h5
  split at h
  · exact Except.noConfusion h
  rename_i structure_rules h6
  split at h
  · exact Except.noConfusion h
  rename_i pace_rules h7
  split at h
  · exact Except.noConfusion h
  rename_i financial_rules h8
  split at h
  · exact Except.noConfusion h
  rename_i readiness_rules h9
  injection h with h'
  subst h'
  exact ⟨parse_date_e_ok.mp h1, parse_date_e_ok.mp h2, parse_date_e_ok.mp h3,
    parse_date_e_ok.mp h4, parse_date_e_ok.mp h5, rfl, rfl, rfl, rfl, rfl,
    lookup_e_ok.mp h6, lookup_e_ok.mp h7, lookup_e_ok.mp h8, lookup_e_ok.mp h9, rfl, rfl⟩

theorem build_entry_ok_inv {res : Resolved} {t : TaskTemplate} {e : EntryK}
    (h : build_entry res t = .ok e) :
    ∃ candidate,
      addDaysO res.project_start_date (7 * max 0 (t.week_offset * res.time_factor / 10000))
        = some candidate
      ∧ e = ⟨format_date (entry_date res t candidate), t.work_stream, t.task, t.lead_party,
          entry_date res t candidate⟩ := by
  unfold build_entry at h
  split at h
  · exact Except.noConfusion h
  · rename_i candidate hadd
    injection h with h'
    exact ⟨candidate, hadd, h'.symm⟩

theorem company_structure_rules_cases {k : String} {r : StructureRule}
    (h : company_structure_rules k = some r) :
    r = ⟨["equity_reform_tasks"], 110⟩ ∨ r = ⟨[], 80⟩ ∨ r = ⟨[], 90⟩ ∨ r = ⟨[], 130⟩ := by
  unfold company_structure_rules at h
  split at h
  · injection h with h'; exact Or.inl h'.symm
  · split at h
    · injection h with h'; exact Or.inr (Or.inl h'.symm)
    · split at h
      · injection h with h'; exact Or.inr (Or.inr (Or.inl h'.symm))
      · split at h
        · injection h with h'; exact Or.inr (Or.inr (Or.inr h'.symm))
        · exact Option.noConfusion h

theorem project_pace_rules_cases {k : String} {r : PaceRule}
    (h : project_pace_rules k = some r) :
    r = ⟨85, "高"⟩ ∨ r = ⟨100, "中"⟩ ∨ r = ⟨115, "低"⟩ := by
  unfold project_pace_rules at h
  split at h
  · injection h with h'; exact Or.inl h'.symm
  · split at h
    · injection h with h'; exact Or.inr (Or.inl h'.symm)
    · split at h
      · injection h with h'; exact Or.inr (Or.inr h'.symm)
      · exact Option.noConfusion h

theorem a1_filing_financials_rules_cases {k : String} {r : FinancialRule}
    (h : a1_filing_financials_rules k = some r) :
    r = ⟨80⟩ ∨ r = ⟨100⟩ ∨ r = ⟨120⟩ := by
  unfold a1_filing_financials_rules at h
  split at h
  · injection h with h'; exact Or.inl h'.symm
  · split at h
    · injection h with h'; exact Or.inr (Or.inl h'.symm)
    · split at h
      · injection h with h'; exact Or.inr (Or.inr h'.symm)
      · exact Option.noConfusion h

theorem ipo_readiness_rules_cases {k : String} {r : ReadinessRule}
    (h : ipo_readiness_rules k = some r) :
    r = ⟨90⟩ ∨ r = ⟨100⟩ ∨ r = ⟨120⟩ := by
  unfold ipo_readiness_rules at h
  split at h
  · injection h with h'; exact Or.inl h'.symm
  · split at h
    · injection h with h'; exact Or.inr (Or.inl h'.symm)
    · split at h
      · injection h with h'; exact Or.inr (Or.inr h'.symm)
      · exact Option.noConfusion h

theorem filter_orderedInsert_sortKey (a : EntryK) (k : Date) :
    ∀ l : List EntryK,
      (List.orderedInsert entryLe a l).filter (fun e => e.sort_date == k)
        = if a.sort_date == k then a :: l.filter (fun e => e.sort_date == k)
          else l.filter (fun e => e.sort_date == k) := by
  intro l
  induction l with
  | nil =>
    by_cases hak : (a.sort_date == k) = true <;>
      simp [List.orderedInsert, List.filter, hak]
  | cons b t ih =>
    unfold List.orderedInsert
    split
    · by_cases hak : (a.sort_date == k) = true <;>
        by_cases hbk : (b.sort_date == k) = true <;>
        simp [List.filter, hak, hbk]
    · rename_i hab
      by_cases hak : (a.sort_date == k) = true <;> by_cases hbk : (b.sort_date == k) = true
      · exfalso
        apply hab
        have h1 : a.sort_date = k := by simpa using hak
        have h2 : b.sort_date = k := by simpa using hbk
        unfold entryLe
        rw [h1, h2]
        exact dateLe_refl k
      · simp [List.filter, hak, hbk, ih]
      · simp [List.filter, hak, hbk, ih]
      · simp [List.filter, hak, hbk, ih]

theorem filter_insertionSort_sortKey (k : Date) :
    ∀ l : List EntryK,
      (List.insertionSort entryLe l).filter (fun e => e.sort_date == k)
        = l.filter (fun e => e.sort_date == k) := by
  intro l
  induction l with
  | nil => rfl
  | cons a t ih =>
    have hstep : List.insertionSort entryLe (a :: t)
        = List.orderedInsert entryLe a (List.insertionSort entryLe t) := rfl
    rw [hstep, filter_orderedInsert_sortKey, ih]
    by_cases hak : (a.sort_date == k) = true <;> simp [List.filter, hak]

theorem generate_eval {client : Option ReviewClient} {p : CaseParams} {res : Resolved}
    {raw : List EntryK} (hres : resolve_params p = .ok res)
    (hraw : raw_timeline res = .ok raw) :
    generate_case_timeline client p = .ok (assemble client p res raw) := by
  unfold generate_case_timeline
  simp only [hres, hraw]

theorem generate_error_of_resolve {client : Option ReviewClient} {p : CaseParams} {e : GenError}
    (h : resolve_params p = .error e) : generate_case_timeline client p = .error e := by
  unfold generate_case_timeline
  simp only [h]

theorem generate_error_of_raw {client : Option ReviewClient} {p : CaseParams} {res : Resolved}
    {e : GenError} (hres : resolve_params p = .ok res) (h : raw_timeline res = .error e) :
    generate_case_timeline client p = .error e := by
  unfold generate_case_timeline
  simp only [hres, h]

theorem run_case_fst {client : Option ReviewClient} {c : String × CaseParams}
    {y : String × GenOutput} (h : run_case client c = .ok y) : y.1 = c.1 := by
  unfold run_case at h
  split at h
  · injection h with h'; rw [← h']
  · exact Except.noConfusion h

theorem run_case_isOk {client : Option ReviewClient} {c : String × CaseParams} :
    (run_case client c).isOk = (generate_case_timeline client c.2).isOk := by
  unfold run_case
  cases hg : generate_case_timeline client c.2 with
  | ok out => rfl
  | error e => rfl

theorem run_batch_isOk_iff (client : Option ReviewClient) (batch : List (String × CaseParams)) :
    (run_batch client batch).isOk = true
      ↔ ∀ c ∈ batch, (generate_case_timeline client c.2).isOk = true := by
  unfold run_batch
  rw [mapE_isOk_iff]
  constructor
  · intro h c hc
    have h2 := h c hc
    rw [run_case_isOk] at h2
    exact h2
  · intro h c hc
    rw [run_case_isOk]
    exact h c hc

theorem run_batch_keys (client : Option ReviewClient) :
    ∀ (batch : List (String × CaseParams)) (m : List (String × GenOutput)),
      run_batch client batch = .ok m → m.map Prod.fst = batch.map Prod.fst := by
  intro batch
  induction batch with
  | nil =>
    intro m h
    injection h with h'
    rw [← h']
    rfl
  | cons c cs ih =>
    intro m h
    unfold run_batch mapE at h
    split at h
    · exact Except.noConfusion h
    · rename_i y hy
      split at h
      · exact Except.noConfusion h
      · rename_i ys hys
        injection h with h'
        subst h'
        have hkey : y.1 = c.1 := run_case_fst hy
        have htail : ys.map Prod.fst = cs.map Prod.fst := ih ys hys
        simp [hkey, htail]

-- ---------------------------------------------------------------------------
-- Claim theorems
-- ---------------------------------------------------------------------------

/-- C2: for every valid parameter set, the timeline returned by
`generate_case_timeline` is the stable sort of the raw (task-catalog-ordered)
timeline by the underlying calendar date — sorted non-decreasing, a
permutation of the raw entries, with equal-date entries kept in raw order
(the filter identity) — and the internal `sort_date` key is removed from
every entry (`dropSortKey` is mapped over the sorted list) before return. -/
theorem timeline_sorted_and_stable (client : Option ReviewClient) (p : CaseParams)
    (res : Resolved) (raw : List EntryK) (out : GenOutput)
    (h₁ : resolve_params p = .ok res) (h₂ : raw_timeline res = .ok raw)
    (h₃ : generate_case_timeline client p = .ok out) :
    out.timeline = (List.insertionSort entryLe raw).map dropSortKey
    ∧ List.Sorted entryLe (List.insertionSort entryLe raw)
    ∧ (List.insertionSort entryLe raw).Perm raw
    ∧ ∀ k : Date, (List.insertionSort entryLe raw).filter (fun e => e.sort_date == k)
        = raw.filter (fun e => e.sort_date == k) := by
  obtain ⟨res', raw', hres', hraw', hout⟩ := generate_ok_inv h₃
  have he : res' = res := by
    rw [hres'] at h₁
    injection h₁
  subst he
  have he2 : raw' = raw := by
    rw [hraw'] at h₂
    injection h₂
  rw [he2] at hout
  refine ⟨?_, List.sorted_insertionSort entryLe raw, List.perm_insertionSort entryLe raw,
    fun k => filter_insertionSort_sortKey k raw⟩
  rw [hout]
  rfl

/-- Witness for C2 at the concrete `Case1` inputs, with the stability filter
instantiated at the tied date 2025-08-18. -/
theorem timeline_sorted_and_stable_witness :
    case1_output.timeline = (List.insertionSort entryLe case1_raws).map dropSortKey
    ∧ List.Sorted entryLe (List.insertionSort entryLe case1_raws)
    ∧ (List.insertionSort entryLe case1_raws).Perm case1_raws
    ∧ (List.insertionSort entryLe case1_raws).filter (fun e => e.sort_date == ⟨2025, 8, 18⟩)
        = case1_raws.filter (fun e => e.sort_date == ⟨2025, 8, 18⟩) := by
  have h := timeline_sorted_and_stable none case1_params case1_resolved case1_raws case1_output
    (by decide) (by decide) (by decide)
  exact ⟨h.1, h.2.1, h.2.2.1, h.2.2.2 ⟨2025, 8, 18⟩⟩

/-- C4: the readiness classifier is a deterministic total function on indicator
collections: the sentinel `几乎未开始` forces 低准备度 (Low) regardless of
co-occurring indicators; otherwise at least 3 non-sentinel indicators give
高准备度 (High); otherwise — including the empty collection — 中等准备度
(Medium). -/
theorem readiness_classifier_total (l : List String) :
    ("几乎未开始" ∈ l → determine_ipo_readiness_level l = "低准备度")
    ∧ ("几乎未开始" ∉ l → 3 ≤ (l.filter fun r => r != "几乎未开始").length →
        determine_ipo_readiness_level l = "高准备度")
    ∧ ("几乎未开始" ∉ l → (l.filter fun r => r != "几乎未开始").length < 3 →
        determine_ipo_readiness_level l = "中等准备度") := by
  unfold determine_ipo_readiness_level
  refine ⟨fun h => by rw [if_pos h], fun h h3 => ?_, fun h h3 => ?_⟩
  · rw [if_neg h, if_pos h3]
  · rw [if_neg h, if_neg (by omega)]

/-- Witness for C4: the sentinel overrides a co-occurring indicator; three
non-sentinel indicators give High; the empty collection gives Medium. -/
theorem readiness_classifier_total_witness :
    determine_ipo_readiness_level ["几乎未开始", "核心中介机构已选聘"] = "低准备度"
    ∧ determine_ipo_readiness_level
        ["核心中介机构已选聘", "初步的财务梳理/预审", "公司治理结构初步规范"] = "高准备度"
    ∧ determine_ipo_readiness_level [] = "中等准备度" :=
  ⟨(readiness_classifier_total _).1 (by decide),
   (readiness_classifier_total _).2.1 (by decide) (by decide),
   (readiness_classifier_total _).2.2 (by decide) (by decide)⟩

/-- C5: whenever parameter resolution succeeds, `time_factor` is exactly the
pace rule's `time_compression` times the classified readiness level's
`preparation_factor`, `complexity_factor` is exactly the structure rule's
`complexity_modifier` times the disclosure-scope (A1 financials) rule's
`audit_complexity`, the four rule records are the catalog entries for the
resolved categorical keys, and both composite factors are strictly positive
(factors are scaled by 10000; positivity is invariant under scaling). -/
theorem composite_factors (p : CaseParams) (res : Resolved)
    (h : resolve_params p = .ok res) :
    res.time_factor = res.pace_rules.time_compression * res.readiness_rules.preparation_factor
    ∧ res.complexity_factor
        = res.structure_rules.complexity_modifier * res.financial_rules.audit_complexity
    ∧ project_pace_rules res.project_pace = some res.pace_rules
    ∧ ipo_readiness_rules res.readiness_level = some res.readiness_rules
    ∧ company_structure_rules res.company_structure = some res.structure_rules
    ∧ a1_filing_financials_rules res.a1_financials = some res.financial_rules
    ∧ 0 < res.time_factor ∧ 0 < res.complexity_factor := by
  obtain ⟨-, -, -, -, -, -, -, -, -, -, h11, h12, h13, h14, h15, h16⟩ := resolve_params_ok_inv h
  refine ⟨h15, h16, h12, h14, h11, h13, ?_, ?_⟩
  · rw [h15]
    have hp : 0 < res.pace_rules.time_compression := by
      rcases project_pace_rules_cases h12 with h' | h' | h' <;> rw [h'] <;> decide
    have hr : 0 < res.readiness_rules.preparation_factor := by
      rcases ipo_readiness_rules_cases h14 with h' | h' | h' <;> rw [h'] <;> decide
    exact Nat.mul_pos hp hr
  · rw [h16]
    have hs : 0 < res.structure_rules.complexity_modifier := by
      rcases company_structure_rules_cases h11 with h' | h' | h' | h' <;> rw [h'] <;> decide
    have hf : 0 < res.financial_rules.audit_complexity := by
      rcases a1_filing_financials_rules_cases h13 with h' | h' | h' <;> rw [h'] <;> decide
    exact Nat.mul_pos hs hf

/-- Witness for C5 at the concrete `Case1` inputs. -/
theorem composite_factors_witness :
    case1_resolved.time_factor = case1_resolved.pace_rules.time_compression
        * case1_resolved.readiness_rules.preparation_factor
    ∧ case1_resolved.complexity_factor
        = case1_resolved.structure_rules.complexity_modifier
            * case1_resolved.financial_rules.audit_complexity
    ∧ project_pace_rules case1_resolved.project_pace = some case1_resolved.pace_rules
    ∧ ipo_readiness_rules case1_resolved.readiness_level = some case1_resolved.readiness_rules
    ∧ company_structure_rules case1_resolved.company_structure
        = some case1_resolved.structure_rules
    ∧ a1_filing_financials_rules case1_resolved.a1_financials
        = some case1_resolved.financial_rules
    ∧ 0 < case1_resolved.time_factor ∧ 0 < case1_resolved.complexity_factor :=
  composite_factors case1_params case1_resolved (by decide)

/-- C6: the review boundary never propagates a fatal error.  With no client
configured, `call_llm_for_review` returns the fixed default pass verdict
(`review_passed = true`, summary `LLM未启用`) without consulting any external
call; when a configured call fails, the failure is converted to a pass verdict
whose summary names the cause; and generation success is independent of the
review client — for any parameter set, every choice of client yields the same
`isOk` outcome. -/
theorem review_boundary_never_fatal (timeline : List TimelineEntry) (p : CaseParams) :
    call_llm_for_review none timeline p = ⟨true, "LLM未启用"⟩
    ∧ (∀ (call : ReviewClient) (e : String), call timeline p = .error e →
        call_llm_for_review (some call) timeline p = ⟨true, "LLM调用失败: " ++ e⟩)
    ∧ (∀ c₁ c₂ : Option ReviewClient,
        (generate_case_timeline c₁ p).isOk = (generate_case_timeline c₂ p).isOk) := by
  refine ⟨rfl, fun call e h => ?_, fun c₁ c₂ => ?_⟩
  · have hu : call_llm_for_review (some call) timeline p
        = match call timeline p with
          | .ok v => v
          | .error e' => ⟨true, "LLM调用失败: " ++ e'⟩ := rfl
    rw [hu, h]
  · cases hres : resolve_params p with
    | error e => rw [generate_error_of_resolve hres, generate_error_of_resolve hres]
    | ok res =>
      cases hraw : raw_timeline res with
      | error e => rw [generate_error_of_raw hres hraw, generate_error_of_raw hres hraw]
      | ok raw =>
        rw [generate_eval hres hraw, generate_eval hres hraw]
        rfl

/-- Witness for C6: the no-client default verdict, and a failing client being
downgraded to a pass verdict naming the cause. -/
theorem review_boundary_never_fatal_witness :
    call_llm_for_review none [] case1_params = ⟨true, "LLM未启用"⟩
    ∧ call_llm_for_review (some fun _ _ => .error "connection timeout") [] case1_params
        = ⟨true, "LLM调用失败: connection timeout"⟩ :=
  ⟨(review_boundary_never_fatal [] case1_params).1,
   (review_boundary_never_fatal [] case1_params).2.1
     (fun _ _ => .error "connection timeout") "connection timeout" rfl⟩

/-- C7 counterexample: in a two-case batch whose first case has an unparseable
project-start anchor, the batch loop propagates the error and returns no
mapping at all, even though the second case alone generates successfully — so
the second case's report does not appear anywhere, contradicting the claimed
per-case error isolation. -/
theorem batch_counterexample :
    run_batch none [("A", bad_params), ("B", case1_params)] = .error (.formatError "bad")
    ∧ (generate_case_timeline none case1_params).isOk = true :=
  ⟨by decide, by decide⟩

/-- C7 (amended): the batch loop has no per-case error handling — it succeeds
exactly when every case succeeds (a single failing case aborts the whole batch
and no mapping is returned), and when it succeeds the returned mapping has
exactly the input case identifiers in order. -/
theorem batch_failure_aborts_batch (client : Option ReviewClient)
    (batch : List (String × CaseParams)) :
    ((run_batch client batch).isOk = true
      ↔ ∀ c ∈ batch, (generate_case_timeline client c.2).isOk = true)
    ∧ ∀ m, run_batch client batch = .ok m → m.map Prod.fst = batch.map Prod.fst :=
  ⟨run_batch_isOk_iff client batch, run_batch_keys client batch⟩

/-- Witness for C7 at the source's own predefined single-case batch. -/
theorem batch_failure_aborts_batch_witness :
    (run_batch none [("Case1", case1_params)]).isOk = true :=
  (batch_failure_aborts_batch none [("Case1", case1_params)]).1.mpr (by decide)

/-- C8 counterexample: looking up a task-group name absent from the Task
Catalog (`base_templates.get(mod, [])`, line 234) yields the empty task group
— a silent default, not a hard error, contradicting the claim for the Task
Catalog half.  (In the shipped Rule Catalog every referenced group name
exists, so generation never exercises this default.) -/
theorem task_catalog_silent_default_counterexample :
    base_templates_get "不存在的任务组" = [] := by decide

/-- C8 (amended): a categorical field value (corporate structure, pace,
disclosure scope) absent from the Rule Catalog makes that case's generation
fail with a hard error, for every review client — never a silent default; the
derived readiness level is always present in the Rule Catalog by construction;
but a task-group name absent from the Task Catalog silently resolves to the
empty task group instead of raising. -/
theorem unknown_key_behavior (p : CaseParams) :
    ((company_structure_rules (p.current_structure.getD "境内有限责任公司 (需股改)") = none
        ∨ project_pace_rules (p.project_pace.getD "标准节奏 (Standard)") = none
        ∨ a1_filing_financials_rules (p.a1_filing_financials.getD "最近三个完整财年") = none)
      → ∀ client, (generate_case_timeline client p).isOk = false)
    ∧ (∀ l, (ipo_readiness_rules (determine_ipo_readiness_level l)).isSome = true)
    ∧ (∀ k, k ≠ "core_tasks" → k ≠ "equity_reform_tasks" → base_templates_get k = []) := by
  refine ⟨fun hnone client => ?_, fun l => ?_, fun k h1 h2 => ?_⟩
  · cases hgen : generate_case_timeline client p with
    | error e => rfl
    | ok out =>
      exfalso
      obtain ⟨res, raw, hres, -, -⟩ := generate_ok_inv hgen
      obtain ⟨-, -, -, -, -, h6, h7, -, h9, -, h11, h12, h13, -, -, -⟩ :=
        resolve_params_ok_inv hres
      rcases hnone with hn | hn | hn
      · rw [h6, hn] at h11; exact Option.noConfusion h11
      · rw [h7, hn] at h12; exact Option.noConfusion h12
      · rw [h9, hn] at h13; exact Option.noConfusion h13
  · unfold determine_ipo_readiness_level
    split
    · decide
    · split <;> decide
  · unfold base_templates_get
    rw [if_neg h1, if_neg h2]

/-- Witness for C8: an unknown corporate-structure value is fatal to its case,
and an absent task-group name resolves to the empty group. -/
theorem unknown_key_behavior_witness :
    (generate_case_timeline none unknown_structure_params).isOk = false
    ∧ base_templates_get "物业评估任务组" = [] :=
  ⟨(unknown_key_behavior unknown_structure_params).1 (Or.inl (by decide)) none,
   (unknown_key_behavior unknown_structure_params).2.2 "物业评估任务组" (by decide) (by decide)⟩

/-- C10: the optional-module selection is read but never used: replacing
`optional_modules` by any selection (with or without the `无` sentinel) leaves
parameter resolution — hence the working task set — literally unchanged, both
variants generate successfully from the same resolved inputs and raw timeline,
and the produced timelines and derived characteristics are identical.  (Only
the echoed `项目参数` field of the report and the arguments passed to the
opaque reviewer can differ.) -/
theorem optional_modules_no_effect (client : Option ReviewClient) (p : CaseParams)
    (mods : List String) (res : Resolved) (raw : List EntryK)
    (h₁ : resolve_params p = .ok res) (h₂ : raw_timeline res = .ok raw) :
    resolve_params (set_optional_modules p mods) = resolve_params p
    ∧ generate_case_timeline client p = .ok (assemble client p res raw)
    ∧ generate_case_timeline client (set_optional_modules p mods)
        = .ok (assemble client (set_optional_modules p mods) res raw)
    ∧ (assemble client (set_optional_modules p mods) res raw).timeline
        = (assemble client p res raw).timeline
    ∧ (assemble client (set_optional_modules p mods) res raw).report.characteristics
        = (assemble client p res raw).report.characteristics :=
  ⟨rfl, generate_eval h₁ h₂,
   generate_eval (show resolve_params (set_optional_modules p mods) = .ok res from h₁) h₂,
   rfl, rfl⟩

/-- Witness for C10 at `Case1`, varying the selection to contain the `无`
sentinel together with a real module. -/
theorem optional_modules_no_effect_witness :
    resolve_params (set_optional_modules case1_params ["无", "物业/资产评估"])
        = resolve_params case1_params
    ∧ generate_case_timeline none case1_params
        = .ok (assemble none case1_params case1_resolved case1_raws)
    ∧ generate_case_timeline none (set_optional_modules case1_params ["无", "物业/资产评估"])
        = .ok (assemble none (set_optional_modules case1_params ["无", "物业/资产评估"])
            case1_resolved case1_raws)
    ∧ (assemble none (set_optional_modules case1_params ["无", "物业/资产评估"])
          case1_resolved case1_raws).timeline
        = (assemble none case1_params case1_resolved case1_raws).timeline
    ∧ (assemble none (set_optional_modules case1_params ["无", "物业/资产评估"])
          case1_resolved case1_raws).report.characteristics
        = (assemble none case1_params case1_resolved case1_raws).report.characteristics :=
  optional_modules_no_effect none case1_params ["无", "物业/资产评估"] case1_resolved case1_raws
    (by decide) (by decide)

theorem tasks_of_cases {res : Resolved}
    (h : company_structure_rules res.company_structure = some res.structure_rules) :
    tasks_of res = core_tasks ++ equity_reform_tasks ∨ tasks_of res = core_tasks := by
  unfold tasks_of
  rcases company_structure_rules_cases h with h' | h' | h' | h' <;> rw [h']
  · left; decide
  · right; decide
  · right; decide
  · right; decide

theorem entry_date_kickoff (res : Resolved) (cand : Date) :
    entry_date res ⟨"项目管理", "召开项目启动会", "全体", 0⟩ cand = cand := by
  unfold entry_date
  rw [if_neg (by decide), if_neg (by decide), if_neg (by decide), if_neg (by decide)]

theorem entry_date_sponsor (res : Resolved) (cand : Date) :
    entry_date res ⟨"境内外监管审批", "定稿保荐人及整体协调人委任函并呈交联交所", "保荐人", 2⟩ cand
      = res.sponsor_agreement_date := by
  unfold entry_date
  rw [if_neg (by decide), if_neg (by decide), if_neg (by decide), if_pos (by decide)]

theorem entry_date_a1 (res : Resolved) (cand : Date) :
    entry_date res ⟨"境内外监管审批", "向联交所递交A1申请", "各方", 23⟩ cand = res.a1_date := by
  unfold entry_date
  rw [if_pos (by decide)]

theorem entry_date_equity_base (res : Resolved) (cand : Date) :
    entry_date res ⟨"股改", "作出确定股改基准日、股权激励等决议", "公司、公司境内律师", 2⟩ cand
      = res.equity_base_date := by
  unfold entry_date
  rw [if_neg (by decide), if_neg (by decide), if_pos (by decide)]

theorem entry_date_completion (res : Resolved) (cand : Date) :
    entry_date res ⟨"股改", "完成股改工作（召开创立大会）", "公司、公司境内律师", 10⟩ cand
      = res.equity_completion_date := by
  unfold entry_date
  rw [if_neg (by decide), if_pos (by decide)]

theorem timeline_mem_inv {client : Option ReviewClient} {p : CaseParams} {res : Resolved}
    {raw : List EntryK} {out : GenOutput} (hraw : raw_timeline res = .ok raw)
    (hout : out = assemble client p res raw) :
    ∀ e ∈ out.timeline, ∃ t ∈ tasks_of res, ∃ cand,
      addDaysO res.project_start_date (7 * max 0 (t.week_offset * res.time_factor / 10000))
          = some cand
      ∧ e = ⟨format_date (entry_date res t cand), t.work_stream, t.task, t.lead_party⟩ := by
  intro e he
  have htl : out.timeline = (List.insertionSort entryLe raw).map dropSortKey := by
    rw [hout]; rfl
  rw [htl] at he
  obtain ⟨ek, hek_mem, hek⟩ := List.mem_map.mp he
  have hek_raw : ek ∈ raw := ((List.perm_insertionSort entryLe raw).mem_iff).mp hek_mem
  obtain ⟨t, ht, hbe⟩ := mapE_ok_forall_mem hraw ek hek_raw
  obtain ⟨cand, hadd, hek_eq⟩ := build_entry_ok_inv hbe
  refine ⟨t, ht, cand, hadd, ?_⟩
  rw [← hek, hek_eq]
  rfl

theorem timeline_mem_of_task {client : Option ReviewClient} {p : CaseParams} {res : Resolved}
    {raw : List EntryK} {out : GenOutput} (hraw : raw_timeline res = .ok raw)
    (hout : out = assemble client p res raw) :
    ∀ t ∈ tasks_of res, ∃ cand,
      addDaysO res.project_start_date (7 * max 0 (t.week_offset * res.time_factor / 10000))
          = some cand
      ∧ (⟨format_date (entry_date res t cand), t.work_stream, t.task, t.lead_party⟩
          : TimelineEntry) ∈ out.timeline := by
  intro t ht
  obtain ⟨ek, hek_mem, hbe⟩ := mapE_ok_mem_exists hraw t ht
  obtain ⟨cand, hadd, hek_eq⟩ := build_entry_ok_inv hbe
  have htl : out.timeline = (List.insertionSort entryLe raw).map dropSortKey := by
    rw [hout]; rfl
  refine ⟨cand, hadd, ?_⟩
  rw [htl]
  have hmem : ek ∈ List.insertionSort entryLe raw :=
    ((List.perm_insertionSort entryLe raw).mem_iff).mpr hek_mem
  have := List.mem_map_of_mem dropSortKey hmem
  rw [hek_eq] at this
  exact this

theorem working_set_milestone_id {res : Resolved}
    (hto : tasks_of res = core_tasks ++ equity_reform_tasks ∨ tasks_of res = core_tasks) :
    ∀ t ∈ tasks_of res,
      (strStarts t.task "定稿保荐人" = true →
        t = ⟨"境内外监管审批", "定稿保荐人及整体协调人委任函并呈交联交所", "保荐人", 2⟩)
      ∧ (strStarts t.task "作出确定股改基准日" = true →
        t = ⟨"股改", "作出确定股改基准日、股权激励等决议", "公司、公司境内律师", 2⟩)
      ∧ (strStarts t.task "完成股改工作" = true →
        t = ⟨"股改", "完成股改工作（召开创立大会）", "公司、公司境内律师", 10⟩)
      ∧ (strStarts t.task "向联交所递交A1申请" = true →
        t = ⟨"境内外监管审批", "向联交所递交A1申请", "各方", 23⟩)
      ∧ (is_milestone_task t = false → t = ⟨"项目管理", "召开项目启动会", "全体", 0⟩) := by
  rcases hto with h | h <;> rw [h] <;> decide

theorem tasks_name_inj {res : Resolved}
    (hto : tasks_of res = core_tasks ++ equity_reform_tasks ∨ tasks_of res = core_tasks) :
    ∀ t₁ ∈ tasks_of res, ∀ t₂ ∈ tasks_of res, t₁.task = t₂.task → t₁ = t₂ := by
  rcases hto with h | h <;> rw [h] <;> decide

/-- C1: the four milestone-bound tasks (identified, as in the source, by their
description prefixes 定稿保荐人 / 作出确定股改基准日 / 完成股改工作 /
向联交所递交A1申请) always resolve to exactly the corresponding anchor date of
the parameter set, formatted verbatim: whenever generation succeeds, every
timeline entry bearing a milestone prefix carries the formatted anchor date —
which the resolution step obtained by parsing the corresponding parameter-set
field — and not the computed candidate date, with no dependence on
`time_factor`; and every task of the working set (so, each milestone task that
is present) contributes an entry with its task description to the returned
timeline. -/
theorem milestone_tasks_anchor (client : Option ReviewClient) (p : CaseParams)
    (res : Resolved) (out : GenOutput)
    (h₁ : resolve_params p = .ok res) (h₂ : generate_case_timeline client p = .ok out) :
    (parse_date p.sponsor_agreement_date = some res.sponsor_agreement_date
      ∧ parse_date p.equity_reform_base_date = some res.equity_base_date
      ∧ parse_date p.equity_reform_completion_date = some res.equity_completion_date
      ∧ parse_date p.a1_submission_date = some res.a1_date)
    ∧ (∀ e ∈ out.timeline,
        (strStarts e.task "定稿保荐人" = true →
          e.date_str = format_date res.sponsor_agreement_date)
        ∧ (strStarts e.task "作出确定股改基准日" = true →
          e.date_str = format_date res.equity_base_date)
        ∧ (strStarts e.task "完成股改工作" = true →
          e.date_str = format_date res.equity_completion_date)
        ∧ (strStarts e.task "向联交所递交A1申请" = true →
          e.date_str = format_date res.a1_date))
    ∧ (∀ t ∈ tasks_of res, ∃ e ∈ out.timeline, e.task = t.task) := by
  obtain ⟨res', raw, hres', hraw, hout⟩ := generate_ok_inv h₂
  have he : res' = res := by rw [hres'] at h₁; injection h₁
  rw [he] at hraw hout
  have hinv := resolve_params_ok_inv h₁
  have h11 := hinv.2.2.2.2.2.2.2.2.2.2.1
  have hto := tasks_of_cases h11
  refine ⟨⟨hinv.2.1, hinv.2.2.1, hinv.2.2.2.1, hinv.2.2.2.2.1⟩, ?_, ?_⟩
  · intro e he_mem
    obtain ⟨t, ht, cand, hadd, he_eq⟩ := timeline_mem_inv hraw hout e he_mem
    have hid := working_set_milestone_id hto t ht
    subst he_eq
    refine ⟨fun h => ?_, fun h => ?_, fun h => ?_, fun h => ?_⟩
    · have ht_eq := hid.1 h
      subst ht_eq
      rw [entry_date_sponsor]
    · have ht_eq := hid.2.1 h
      subst ht_eq
      rw [entry_date_equity_base]
    · have ht_eq := hid.2.2.1 h
      subst ht_eq
      rw [entry_date_completion]
    · have ht_eq := hid.2.2.2.1 h
      subst ht_eq
      rw [entry_date_a1]
  · intro t ht
    obtain ⟨cand, -, hmem⟩ := timeline_mem_of_task hraw hout t ht
    exact ⟨⟨format_date (entry_date res t cand), t.work_stream, t.task, t.lead_party⟩,
      hmem, rfl⟩

/-- Witness for C1 at `Case1`: the sponsor-appointment entry carries exactly
the formatted sponsor-agreement anchor, and the A1-submission entry exactly
the formatted A1 anchor. -/
theorem milestone_tasks_anchor_witness :
    (⟨"2025年8月18日当周", "境内外监管审批", "定稿保荐人及整体协调人委任函并呈交联交所",
        "保荐人"⟩ : TimelineEntry).date_str
      = format_date case1_resolved.sponsor_agreement_date
    ∧ (⟨"2026年1月12日当周", "境内外监管审批", "向联交所递交A1申请",
        "各方"⟩ : TimelineEntry).date_str
      = format_date case1_resolved.a1_date := by
  have h := milestone_tasks_anchor none case1_params case1_resolved case1_output
    (by decide) (by decide)
  exact ⟨(h.2.1 _ (by decide)).1 (by decide), (h.2.1 _ (by decide)).2.2.2 (by decide)⟩

/-- C3: every task of the working set not bound to a milestone role resolves
to `project_start_date + weeks(max(0, floor(nominal_week_offset × time_factor)))`
(factors scaled by 10000, so the floor is the Nat division by 10000; date
addition is `addDaysO`, 7 days per week): the addition succeeds, its result is
never before the project start date (the zero clamp is the only clamp — no
upper clamp exists, the formula itself applies any product above 1 unchanged),
the timeline contains an entry for the task carrying exactly that formatted
date, and every timeline entry with that task description carries it. -/
theorem nonmilestone_scaled (client : Option ReviewClient) (p : CaseParams)
    (res : Resolved) (out : GenOutput)
    (h₁ : resolve_params p = .ok res) (h₂ : generate_case_timeline client p = .ok out) :
    ∀ t ∈ tasks_of res, is_milestone_task t = false →
      (addDaysO res.project_start_date
          (7 * max 0 (t.week_offset * res.time_factor / 10000))).isSome = true
      ∧ ∀ d, addDaysO res.project_start_date
            (7 * max 0 (t.week_offset * res.time_factor / 10000)) = some d →
          DateLe res.project_start_date d
          ∧ (∃ e ∈ out.timeline, e.task = t.task ∧ e.date_str = format_date d)
          ∧ ∀ e ∈ out.timeline, e.task = t.task → e.date_str = format_date d := by
  obtain ⟨res', raw, hres', hraw, hout⟩ := generate_ok_inv h₂
  have he : res' = res := by rw [hres'] at h₁; injection h₁
  rw [he] at hraw hout
  have hinv := resolve_params_ok_inv h₁
  have h11 := hinv.2.2.2.2.2.2.2.2.2.2.1
  have hto := tasks_of_cases h11
  intro t ht hmile
  have ht_eq := (working_set_milestone_id hto t ht).2.2.2.2 hmile
  obtain ⟨cand, hadd, hmem⟩ := timeline_mem_of_task hraw hout t ht
  constructor
  · rw [hadd]; rfl
  · intro d hd
    rw [hadd] at hd
    injection hd with hd'
    refine ⟨hd' ▸ addDaysO_le _ _ _ hadd, ?_, ?_⟩
    · refine ⟨⟨format_date (entry_date res t cand), t.work_stream, t.task, t.lead_party⟩,
        hmem, rfl, ?_⟩
      rw [ht_eq, entry_date_kickoff, ← hd']
    · intro e he_mem he_name
      obtain ⟨t2, ht2, cand2, hadd2, he_eq⟩ := timeline_mem_inv hraw hout e he_mem
      have ht2_eq : t2 = t := by
        apply tasks_name_inj hto t2 ht2 t ht
        rw [he_eq] at he_name
        exact he_name
      rw [ht2_eq] at hadd2 he_eq
      rw [hadd] at hadd2
      injection hadd2 with hc
      rw [he_eq, ht_eq, ← hc, entry_date_kickoff, ← hd']

/-- Witness for C3 at `Case1`: the kickoff task (week offset 0) resolves to
the project start date itself, which is not before the project start date,
and the kickoff entry of the timeline carries exactly that formatted date. -/
theorem nonmilestone_scaled_witness :
    DateLe case1_resolved.project_start_date ⟨2025, 8, 4⟩
    ∧ (⟨"2025年8月4日当周", "项目管理", "召开项目启动会",
        "全体"⟩ : TimelineEntry).date_str = format_date ⟨2025, 8, 4⟩ := by
  have h := nonmilestone_scaled none case1_params case1_resolved case1_output
    (by decide) (by decide) ⟨"项目管理", "召开项目启动会", "全体", 0⟩ (by decide) (by decide)
  have h2 := h.2 ⟨2025, 8, 4⟩ (by decide)
  exact ⟨h2.1, h2.2.2 _ (by decide) (by decide)⟩

theorem digitChar_facts (n : Nat) (h : n < 10) :
    (Nat.digitChar n).toNat = 48 + n
    ∧ Nat.digitChar n ≠ '当' ∧ Nat.digitChar n ≠ '周' ∧ Nat.digitChar n ≠ '年'
    ∧ Nat.digitChar n ≠ '月' ∧ Nat.digitChar n ≠ '日' ∧ Nat.digitChar n ≠ '-' := by
  interval_cases n <;> decide

theorem isDigitC_digitChar (n : Nat) (h : n < 10) : isDigitC (Nat.digitChar n) = true := by
  interval_cases n <;> decide

theorem digitVal_digitChar (n : Nat) (h : n < 10) : digitVal (Nat.digitChar n) = n := by
  interval_cases n <;> decide

theorem digitsRevAux_zero (f : Nat) : digitsRevAux f 0 = [] := by cases f <;> rfl

theorem digitsRevAux_succ (g n : Nat) :
    digitsRevAux (g + 1) n = if n = 0 then [] else n % 10 :: digitsRevAux g (n / 10) := rfl

theorem digitsRevAux_unfold {f n : Nat} (h1 : 0 < n) (h2 : n ≤ f) :
    digitsRevAux f n = n % 10 :: digitsRevAux (f - 1) (n / 10) := by
  cases f with
  | zero => omega
  | succ g => rw [digitsRevAux_succ, if_neg (by omega)]; rfl

theorem digitsRevAux_lt (f : Nat) : ∀ n x, x ∈ digitsRevAux f n → x < 10 := by
  induction f with
  | zero => intro n x hx; simp [digitsRevAux] at hx
  | succ g ih =>
    intro n x hx
    rw [digitsRevAux_succ] at hx
    by_cases hn : n = 0
    · rw [if_pos hn] at hx; simp at hx
    · rw [if_neg hn] at hx
      rcases List.mem_cons.mp hx with h1 | h2
      · rw [h1]; exact Nat.mod_lt n (by omega)
      · exact ih (n / 10) x h2

theorem natDigits_chars {n : Nat} (h : 0 < n) :
    ∀ c ∈ natDigits n,
      c ≠ '当' ∧ c ≠ '周' ∧ c ≠ '年' ∧ c ≠ '月' ∧ c ≠ '日' ∧ c ≠ '-' := by
  unfold natDigits
  rw [if_neg (by omega)]
  intro c hc
  simp only [List.mem_map, List.mem_reverse] at hc
  obtain ⟨x, hx, hxc⟩ := hc
  have hx10 := digitsRevAux_lt n n x hx
  have hf := digitChar_facts x hx10
  rw [← hxc]
  exact ⟨hf.2.1, hf.2.2.1, hf.2.2.2.1, hf.2.2.2.2.1, hf.2.2.2.2.2.1, hf.2.2.2.2.2.2⟩

theorem natDigits_four {y : Nat} (h1 : 1000 ≤ y) (h2 : y ≤ 9999) :
    natDigits y = [Nat.digitChar (y / 1000), Nat.digitChar (y / 100 % 10),
      Nat.digitChar (y / 10 % 10), Nat.digitChar (y % 10)] := by
  have d2 : y / 10 / 10 = y / 100 := by omega
  have d3 : y / 100 / 10 = y / 1000 := by omega
  have d4 : y / 1000 % 10 = y / 1000 := by omega
  have e1 := digitsRevAux_unfold (f := y) (n := y) (by omega) (le_refl y)
  have e2 := digitsRevAux_unfold (f := y - 1) (n := y / 10) (by omega) (by omega)
  have e3 : digitsRevAux (y - 1 - 1) (y / 100)
      = y / 100 % 10 :: digitsRevAux (y - 1 - 1 - 1) (y / 1000) := by
    rw [digitsRevAux_unfold (f := y - 1 - 1) (n := y / 100) (by omega) (by omega), d3]
  have e4 : digitsRevAux (y - 1 - 1 - 1) (y / 1000)
      = y / 1000 % 10 :: digitsRevAux (y - 1 - 1 - 1 - 1) (y / 10000) := by
    rw [digitsRevAux_unfold (f := y - 1 - 1 - 1) (n := y / 1000) (by omega) (by omega)]
    have : y / 1000 / 10 = y / 10000 := by omega
    rw [this]
  have e5 : y / 10000 = 0 := by omega
  unfold natDigits
  rw [if_neg (by omega), e1, e2, d2, e3, e4, d4, e5, digitsRevAux_zero]
  simp

theorem yearOk_digits {a b c e : Nat} (ha : a < 10) (hb : b < 10) (hc : c < 10) (he : e < 10) :
    yearOk [Nat.digitChar a, Nat.digitChar b, Nat.digitChar c, Nat.digitChar e]
      = some (((a * 10 + b) * 10 + c) * 10 + e) := by
  simp only [yearOk]
  rw [isDigitC_digitChar a ha, isDigitC_digitChar b hb, isDigitC_digitChar c hc,
    isDigitC_digitChar e he]
  simp [digitVal_digitChar a ha, digitVal_digitChar b hb, digitVal_digitChar c hc,
    digitVal_digitChar e he]

theorem monthOk_natDigits {m : Nat} (h1 : 1 ≤ m) (h2 : m ≤ 12) :
    monthOk (natDigits m) = some m := by
  interval_cases m <;> decide

theorem dayOk_natDigits {d : Nat} (h1 : 1 ≤ d) (h2 : d ≤ 31) :
    dayOk (natDigits d) = some d := by
  interval_cases d <;> decide

theorem daysInMonth_le (y m : Nat) : daysInMonth y m ≤ 31 := by
  unfold daysInMonth
  split
  · split <;> omega
  · split <;> omega

theorem yearOk_le {l : List Char} {y : Nat} (h : yearOk l = some y) : y ≤ 9999 := by
  unfold yearOk at h
  split at h
  · split at h
    · rename_i a b c e hcond
      injection h with h'
      simp only [Bool.and_eq_true] at hcond
      obtain ⟨⟨⟨hca, hcb⟩, hcc⟩, hce⟩ := hcond
      unfold isDigitC at hca hcb hcc hce
      simp only [Bool.and_eq_true, decide_eq_true_eq] at hca hcb hcc hce
      unfold digitVal at h'
      omega
    · exact Option.noConfusion h
  · exact Option.noConfusion h

theorem monthOk_bounds {l : List Char} {m : Nat} (h : monthOk l = some m) :
    1 ≤ m ∧ m ≤ 12 := by
  unfold monthOk at h
  split at h
  · split at h
    · rename_i c hc
      injection h with h'
      unfold digitVal at h'
      omega
    · exact Option.noConfusion h
  · split at h
    · rename_i a b hab
      injection h with h'
      unfold digitVal at h'
      omega
    · split at h
      · rename_i a b hnot hab
        injection h with h'
        unfold digitVal at h'
        omega
      · exact Option.noConfusion h
  · exact Option.noConfusion h

theorem dayOk_bounds {l : List Char} {d : Nat} (h : dayOk l = some d) :
    1 ≤ d ∧ d ≤ 31 := by
  unfold dayOk at h
  split at h
  · split at h
    · rename_i c hc
      injection h with h'
      unfold digitVal at h'
      omega
    · exact Option.noConfusion h
  · split at h
    · rename_i a b hab
      injection h with h'
      unfold digitVal at h'
      omega
    · split at h
      · rename_i a b hn1 hab
        injection h with h'
        obtain ⟨hor, hb⟩ := hab
        unfold isDigitC at hb
        simp only [Bool.and_eq_true, decide_eq_true_eq] at hb
        have hbv : digitVal b ≤ 9 := by unfold digitVal; omega
        have hav2 : digitVal a ≤ 2 := by
          rcases hor with h1 | h1 <;> rw [h1] <;> decide
        have hav1 : 1 ≤ digitVal a := by
          rcases hor with h1 | h1 <;> rw [h1] <;> decide
        omega
      · split at h
        · rename_i a b hn1 hn2 hab
          injection h with h'
          unfold digitVal at h'
          omega
        · exact Option.noConfusion h
  · exact Option.noConfusion h

theorem strptimeYMD_valid {cs : List Char} {d : Date} (h : strptimeYMD cs = some d) :
    ValidDate d := by
  unfold strptimeYMD at h
  split at h
  · split at h
    · rename_i yc mc dc y m dd hy hm hd
      split at h
      · rename_i hcond
        injection h with h'
        rw [← h']
        obtain ⟨hm1, hm2⟩ := monthOk_bounds hm
        obtain ⟨hd1, -⟩ := dayOk_bounds hd
        exact ⟨hcond.1, yearOk_le hy, hm1, hm2, hd1, hcond.2⟩
      · exact Option.noConfusion h
    · exact Option.noConfusion h
  · exact Option.noConfusion h

theorem parse_date_valid {s : String} {d : Date} (h : parse_date s = some d) : ValidDate d := by
  unfold parse_date at h
  split at h
  · exact strptimeYMD_valid h
  · exact strptimeYMD_valid h

theorem containsZhou_append (xs : List Char) : containsZhou (xs ++ ['当', '周']) = true := by
  induction xs with
  | nil => rfl
  | cons a t ih =>
    cases t with
    | nil => simp [containsZhou]
    | cons b t' =>
      have ih' : containsZhou (b :: (t' ++ ['当', '周'])) = true := ih
      simp [containsZhou, ih']

theorem stripZhou_append {xs : List Char} (h : ∀ c ∈ xs, c ≠ '当') :
    stripZhou (xs ++ ['当', '周']) = xs := by
  induction xs with
  | nil => rfl
  | cons a t ih =>
    have ha : a ≠ '当' := h a (List.mem_cons_self a t)
    have ht : ∀ c ∈ t, c ≠ '当' := fun c hc => h c (List.mem_cons_of_mem a hc)
    cases t with
    | nil => simp [stripZhou, ha]
    | cons b t' =>
      have ih' : stripZhou (b :: (t' ++ ['当', '周'])) = b :: t' := ih ht
      simp [stripZhou, ha, ih']

theorem repl1_append (a b : Char) (l₁ l₂ : List Char) :
    repl1 a b (l₁ ++ l₂) = repl1 a b l₁ ++ repl1 a b l₂ := by
  simp [repl1]

theorem repl1_cons (a b c : Char) (l : List Char) :
    repl1 a b (c :: l) = (if c = a then b else c) :: repl1 a b l := by
  simp [repl1]

theorem repl1_noop {a b : Char} {l : List Char} (h : ∀ c ∈ l, c ≠ a) : repl1 a b l = l := by
  induction l with
  | nil => rfl
  | cons x t ih =>
    rw [repl1_cons, if_neg (h x (List.mem_cons_self x t)),
      ih fun c hc => h c (List.mem_cons_of_mem x hc)]

theorem drop1_append (a : Char) (l₁ l₂ : List Char) :
    drop1 a (l₁ ++ l₂) = drop1 a l₁ ++ drop1 a l₂ := by
  simp [drop1]

theorem drop1_cons (a c : Char) (l : List Char) :
    drop1 a (c :: l) = if c != a then c :: drop1 a l else drop1 a l := by
  unfold drop1
  rw [List.filter_cons]

theorem drop1_noop {a : Char} {l : List Char} (h : ∀ c ∈ l, c ≠ a) : drop1 a l = l := by
  induction l with
  | nil => rfl
  | cons x t ih =>
    rw [drop1_cons, if_pos (by simp [h x (List.mem_cons_self x t)]),
      ih fun c hc => h c (List.mem_cons_of_mem x hc)]

theorem splitDash_ne_nil (l : List Char) : splitDash l ≠ [] := by
  induction l with
  | nil => simp [splitDash]
  | cons c t ih =>
    cases h : splitDash t with
    | nil => exact absurd h ih
    | cons g gs =>
      simp only [splitDash, h]
      split <;> simp

theorem splitDash_no_dash {l : List Char} (h : ∀ c ∈ l, c ≠ '-') : splitDash l = [l] := by
  induction l with
  | nil => rfl
  | cons c t ih =>
    have ht := fun x hx => h x (List.mem_cons_of_mem c hx)
    simp [splitDash, ih ht, h c (List.mem_cons_self c t)]

theorem splitDash_append {l₁ : List Char} (rest : List Char) (h : ∀ c ∈ l₁, c ≠ '-') :
    splitDash (l₁ ++ '-' :: rest) = l₁ :: splitDash rest := by
  induction l₁ with
  | nil =>
    cases hs : splitDash rest with
    | nil => exact absurd hs (splitDash_ne_nil rest)
    | cons g gs => simp [splitDash, hs]
  | cons c t ih =>
    have hc := h c (List.mem_cons_self c t)
    have ht := fun x hx => h x (List.mem_cons_of_mem c hx)
    simp [splitDash, ih ht, hc]

theorem format_reparse {d : Date} (hv : ValidDate d) (hy : 1000 ≤ d.year) :
    parse_date (format_date d) = some d := by
  obtain ⟨y, m, dd⟩ := d
  obtain ⟨h1, h2, h3, h4, h5, h6⟩ := hv
  have hy' : 1000 ≤ y := hy
  have h2' : y ≤ 9999 := h2
  have h3' : 1 ≤ m := h3
  have h4' : m ≤ 12 := h4
  have h5' : 1 ≤ dd := h5
  have h6' : dd ≤ daysInMonth y m := h6
  have hdd31 : dd ≤ 31 := le_trans h6' (daysInMonth_le y m)
  have hyc := natDigits_chars (n := y) (by omega)
  have hmc := natDigits_chars (n := m) (by omega)
  have hdc := natDigits_chars (n := dd) (by omega)
  have hdata : (format_date ⟨y, m, dd⟩).data
      = (natDigits y ++ '年' :: natDigits m ++ '月' :: natDigits dd ++ ['日']) ++ ['当', '周'] := by
    simp [format_date]
  have hnozhou : ∀ c ∈ natDigits y ++ '年' :: natDigits m ++ '月' :: natDigits dd ++ ['日'],
      c ≠ '当' := by
    intro c hc
    rcases List.mem_append.mp hc with h | h
    · rcases List.mem_append.mp h with h | h
      · rcases List.mem_append.mp h with h | h
        · exact (hyc c h).1
        · rcases List.mem_cons.mp h with h | h
          · rw [h]; decide
          · exact (hmc c h).1
      · rcases List.mem_cons.mp h with h | h
        · rw [h]; decide
        · exact (hdc c h).1
    · rcases List.mem_cons.mp h with h | h
      · rw [h]; decide
      · exact absurd h (List.not_mem_nil c)
  have hcz : containsZhou (format_date ⟨y, m, dd⟩).data = true := by
    rw [hdata]; exact containsZhou_append _
  have repl1_nil : ∀ a b : Char, repl1 a b [] = [] := fun a b => rfl
  have hr1 : repl1 '年' '-' (natDigits y ++ '年' :: natDigits m ++ '月' :: natDigits dd ++ ['日'])
      = natDigits y ++ '-' :: natDigits m ++ '月' :: natDigits dd ++ ['日'] := by
    have n1 : repl1 '年' '-' (natDigits y) = natDigits y :=
      repl1_noop fun c hc => (hyc c hc).2.2.1
    have n2 : repl1 '年' '-' (natDigits m) = natDigits m :=
      repl1_noop fun c hc => (hmc c hc).2.2.1
    have n3 : repl1 '年' '-' (natDigits dd) = natDigits dd :=
      repl1_noop fun c hc => (hdc c hc).2.2.1
    have i1 : (if ('年' : Char) = '年' then ('-' : Char) else '年') = '-' := by decide
    have i2 : (if ('月' : Char) = '年' then ('-' : Char) else '月') = '月' := by decide
    have i3 : (if ('日' : Char) = '年' then ('-' : Char) else '日') = '日' := by decide
    simp only [repl1_append, repl1_cons, repl1_nil, n1, n2, n3, i1, i2, i3, if_true]
  have hr2 : repl1 '月' '-' (natDigits y ++ '-' :: natDigits m ++ '月' :: natDigits dd ++ ['日'])
      = natDigits y ++ '-' :: natDigits m ++ '-' :: natDigits dd ++ ['日'] := by
    have n1 : repl1 '月' '-' (natDigits y) = natDigits y :=
      repl1_noop fun c hc => (hyc c hc).2.2.2.1
    have n2 : repl1 '月' '-' (natDigits m) = natDigits m :=
      repl1_noop fun c hc => (hmc c hc).2.2.2.1
    have n3 : repl1 '月' '-' (natDigits dd) = natDigits dd :=
      repl1_noop fun c hc => (hdc c hc).2.2.2.1
    have i1 : (if ('-' : Char) = '月' then ('-' : Char) else '-') = '-' := by decide
    have i2 : (if ('月' : Char) = '月' then ('-' : Char) else '月') = '-' := by decide
    have i3 : (if ('日' : Char) = '月' then ('-' : Char) else '日') = '日' := by decide
    simp only [repl1_append, repl1_cons, repl1_nil, n1, n2, n3, i1, i2, i3, if_true]
  have hr3 : drop1 '日' (natDigits y ++ '-' :: natDigits m ++ '-' :: natDigits dd ++ ['日'])
      = natDigits y ++ '-' :: natDigits m ++ '-' :: natDigits dd := by
    have n1 : drop1 '日' (natDigits y) = natDigits y :=
      drop1_noop fun c hc => (hyc c hc).2.2.2.2.1
    have n2 : drop1 '日' (natDigits m) = natDigits m :=
      drop1_noop fun c hc => (hmc c hc).2.2.2.2.1
    have n3 : drop1 '日' (natDigits dd) = natDigits dd :=
      drop1_noop fun c hc => (hdc c hc).2.2.2.2.1
    have j1 : ∀ l, drop1 '日' ('-' :: l) = '-' :: drop1 '日' l := fun l => by
      rw [drop1_cons, if_pos (by decide)]
    have j2 : ∀ l, drop1 '日' ('日' :: l) = drop1 '日' l := fun l => by
      rw [drop1_cons, if_neg (by decide)]
    have j0 : drop1 '日' ([] : List Char) = [] := rfl
    simp only [drop1_append, j1, j2, j0, n1, n2, n3, List.append_nil]
  have hs : splitDash (natDigits y ++ '-' :: natDigits m ++ '-' :: natDigits dd)
      = [natDigits y, natDigits m, natDigits dd] := by
    have ha := fun c hc => (hyc c hc).2.2.2.2.2
    have hb := fun c hc => (hmc c hc).2.2.2.2.2
    have hcd := fun c hc => (hdc c hc).2.2.2.2.2
    calc splitDash (natDigits y ++ '-' :: natDigits m ++ '-' :: natDigits dd)
        = splitDash (natDigits y ++ '-' :: (natDigits m ++ '-' :: natDigits dd)) := by
          simp [List.cons_append, List.append_assoc]
      _ = natDigits y :: splitDash (natDigits m ++ '-' :: natDigits dd) :=
          splitDash_append _ ha
      _ = natDigits y :: natDigits m :: splitDash (natDigits dd) := by
          rw [splitDash_append _ hb]
      _ = [natDigits y, natDigits m, natDigits dd] := by
          rw [splitDash_no_dash hcd]
  have hyear : yearOk (natDigits y) = some y := by
    rw [natDigits_four (by omega) (by omega),
      yearOk_digits (by omega) (by omega) (by omega) (by omega)]
    congr 1
    omega
  unfold parse_date
  rw [if_pos hcz, hdata, stripZhou_append hnozhou, hr1, hr2, hr3]
  simp only [strptimeYMD, hs, hyear, monthOk_natDigits h3' h4', dayOk_natDigits h5' hdd31]
  rw [if_pos ⟨by omega, h6'⟩]

/-- C9 counterexample: `0900年8月4日当周` is accepted by the Date Codec's parse
(`strptime`'s `%Y` matches exactly four digits, so the zero-padded year 900
parses), but formatting the parsed date re-emits the year unpadded as `900`,
and re-parsing `900年8月4日当周` fails — the round-trip does not yield the same
calendar date; it yields no date at all. -/
theorem date_codec_counterexample :
    parse_date "0900年8月4日当周" = some ⟨900, 8, 4⟩
    ∧ parse_date (format_date ⟨900, 8, 4⟩) = none :=
  ⟨by decide, by decide⟩

/-- C9 (amended): for every anchor-date string accepted by the Date Codec's
parse whose parsed year is at least 1000 (so the year re-renders with four
digits), formatting the parsed date and re-parsing the formatted text yields
exactly the same calendar date.  For years below 1000 the formatted year has
fewer than four digits and the re-parse fails (see the counterexample). -/
theorem date_codec_roundtrip (s : String) (d : Date) (h : parse_date s = some d)
    (hy : 1000 ≤ d.year) : parse_date (format_date d) = some d :=
  format_reparse (parse_date_valid h) hy

/-- Witness for C9: the default project-start anchor round-trips. -/
theorem date_codec_roundtrip_witness :
    parse_date "2025年8月4日当周" = some ⟨2025, 8, 4⟩
    ∧ parse_date (format_date (⟨2025, 8, 4⟩ : Date)) = some ⟨2025, 8, 4⟩ :=
  ⟨by decide, date_codec_roundtrip "2025年8月4日当周" ⟨2025, 8, 4⟩ (by decide) (by decide)⟩
